import Mathlib

/-!
Verification of the vcrpy-encrypt persister (`vcrpy_encrypt/persister.py`).

The module is embedded shallowly:
* bytes are `List Nat`;
* the filesystem is an explicit state `FS` threaded through `save_cassette`
  and `load_cassette`; it carries injection points (`failRead`, `failWrite`)
  that model an `OSError` raised by `open`, so that error-propagation
  behaviour is observable;
* the AES-GCM primitive from the external `cryptography` package and the
  serializer from the external `vcr` package are opaque collaborators,
  passed in as parameters; theorems assume exactly their documented
  contracts (round trip, 16-byte tag appended, rejection of
  non-authentic input);
* `os.urandom(12)` is modelled by passing the nonce as an argument;
* Python exceptions are mapped to the constructors of `PyErr`
  (`NotConfiguredException` to `notConfigured`, the
  `ValueError("Cassette not found.")` to `notFound`, `InvalidTag` and
  deserialization failures to `decodeError`, the invalid `bit_length`
  `ValueError` to `invalidParameter`, any other `OSError` to `osError`).
-/

/-- Bytes, as in a Python `bytes` object: a list of values below 256. -/
abbrev Bytes := List Nat

/-- UTF-8 encoding of a string, as Python `str.encode("UTF-8")`. -/
def strToBytes (s : String) : Bytes :=
  (s.data.flatMap String.utf8EncodeChar).map UInt8.toNat

/-- Kinds of `OSError` the model distinguishes: `enoent` is the missing-file
error, the others stand for any other filesystem failure. -/
inductive OSKind
  | enoent
  | eacces
  | enospc
deriving DecidableEq

/-- The error taxonomy of the persister (each constructor documents the
Python exception it stands for, see the module docstring). -/
inductive PyErr
  | notConfigured
  | notFound
  | decodeError
  | invalidParameter
  | invalidKey
  | osError (k : OSKind)
deriving DecidableEq

/-- Filesystem state: file contents, existing directories, and injected
failures for opening a path for reading / writing. -/
structure FS where
  files : String → Option Bytes
  dirs : String → Bool
  failRead : String → Option OSKind
  failWrite : String → Option OSKind

/-- `open(p, "rb").read()`: fails with the injected error if any, with
`enoent` if the file does not exist, else returns the contents. -/
def FS.openRead (fs : FS) (p : String) : Except OSKind Bytes :=
  match fs.failRead p with
  | some k => .error k
  | none =>
    match fs.files p with
    | some c => .ok c
    | none => .error .enoent

/-- Store contents at a path, replacing what was there (truncating write). -/
def FS.writeFile (fs : FS) (p : String) (c : Bytes) : FS :=
  { fs with files := fun q => if q = p then some c else fs.files q }

/-- `open(p, "w"/"wb")` followed by a full write: fails with the injected
error if any, else replaces the file contents. -/
def FS.openWrite (fs : FS) (p : String) (c : Bytes) : Except OSKind FS :=
  match fs.failWrite p with
  | some k => .error k
  | none => .ok (fs.writeFile p c)

/-- `os.path.isfile`. -/
def FS.isfile (fs : FS) (p : String) : Bool := (fs.files p).isSome

/-- `os.path.exists` (true for files and directories). -/
def FS.pathExists (fs : FS) (p : String) : Bool := fs.isfile p || fs.dirs p

/-- `os.makedirs` (modelled as infallible; it only marks the directory). -/
def FS.makedirs (fs : FS) (d : String) : FS :=
  { fs with dirs := fun q => if q = d then true else fs.dirs q }

/-- The head component of `os.path.split(p)` for ordinary POSIX paths:
everything before the last slash. -/
def dirnameOf (p : String) : String :=
  let parts := p.splitOn "/"
  if parts.length ≤ 1 then "" else String.intercalate "/" parts.dropLast

/-- The AES-GCM primitive of the `cryptography` package, kept opaque:
`encrypt key nonce plaintext` returns ciphertext with the tag appended,
`decrypt key nonce taggedCiphertext` returns `none` when authentication
fails (`InvalidTag`) or the byte layout is invalid. -/
structure AEAD where
  encrypt : Bytes → Bytes → Bytes → Bytes
  decrypt : Bytes → Bytes → Bytes → Option Bytes

/-- The key-length check performed by the `AESGCM` constructor. -/
def validKeyLength (k : Bytes) : Bool :=
  k.length == 16 || k.length == 24 || k.length == 32

/-- The serializer collaborator from `vcr.serialize`: `serialize` produces
text, `deserialize` consumes the raw bytes read back and may fail. -/
structure Serializer (R : Type) where
  serialize : R → String
  deserialize : Bytes → Option R

/-- The class-level configuration of `BaseEncryptedPersister`. -/
structure Persister where
  encryption_key : Option Bytes
  should_output_clear_text_as_well : Bool
  clear_text_suffix : String
  encoded_suffix : String

/-- The defaults declared on `BaseEncryptedPersister` itself. -/
def basePersister : Persister :=
  { encryption_key := none
    should_output_clear_text_as_well := false
    clear_text_suffix := ""
    encoded_suffix := ".enc" }

/-- `BaseEncryptedPersister._get_encryption_key`. -/
def Persister.get_encryption_key (P : Persister) : Except PyErr Bytes :=
  match P.encryption_key with
  | none => .error .notConfigured
  | some k => .ok k

/-- The character pool of `generate_key`:
`string.ascii_uppercase + string.digits + string.ascii_lowercase
+ string.punctuation`. -/
def available_chars : List Char :=
  ("ABCDEFGHIJKLMNOPQRSTUVWXYZ" ++ "0123456789"
    ++ "abcdefghijklmnopqrstuvwxyz"
    ++ "!\x22#$%&\x27()*+,-./:;<=>?@[\\]^_\x60\x7b|\x7d~").data

/-- `generate_key(bit_length)`; `choice` models the stream of draws that
`secrets.choice` makes from `available_chars` (pure apart from reading the
random source, which is exactly this parameter). -/
def generate_key (bit_length : Nat) (choice : Nat → Char) : Except PyErr Bytes :=
  if bit_length ∉ [128, 192, 256] then
    .error .invalidParameter
  else
    let length := bit_length / 8
    .ok (strToBytes (String.mk ((List.range length).map choice)))

/-- `generate_key()` with the declared default `bit_length = 128`. -/
def generate_key_default (choice : Nat → Char) : Except PyErr Bytes :=
  generate_key 128 choice

/-- The directory-creation step of `save_cassette`:
`dirname, _ = os.path.split(cassette_path)` followed by the conditional
`os.makedirs(dirname)`. -/
def ensureParentDir (cassette_path : String) (fs : FS) : FS :=
  if dirnameOf cassette_path != "" && !(fs.pathExists (dirnameOf cassette_path)) then
    fs.makedirs (dirnameOf cassette_path)
  else fs

/-- The tail of `save_cassette` from `cipher = AESGCM(...)` on: key lookup,
`AESGCM` constructor key-length check, encryption, write of
`nonce || tagged_ciphertext` to the encoded path. -/
def save_encode (P : Persister) (aead : AEAD) (cassette_path : String)
    (dataBytes : Bytes) (nonce : Bytes) (fs : FS) : Except PyErr Unit × FS :=
  match P.get_encryption_key with
  | .error e => (.error e, fs)
  | .ok key =>
    if validKeyLength key then
      match fs.openWrite (cassette_path ++ P.encoded_suffix)
          (nonce ++ aead.encrypt key nonce dataBytes) with
      | .error k => (.error (.osError k), fs)
      | .ok fs2 => (.ok (), fs2)
    else (.error .invalidKey, fs)

/-- `BaseEncryptedPersister.save_cassette`: serialize, create the parent
directory if missing, optionally write the clear-text file, then encrypt
and write the encoded file (`save_encode`). The clear-text file receives
the serialized text (written in text mode in the source, hence its UTF-8
bytes here). -/
def save_cassette {R : Type} (P : Persister) (aead : AEAD) (S : Serializer R)
    (cassette_path : String) (cassette_dict : R) (nonce : Bytes) (fs : FS) :
    Except PyErr Unit × FS :=
  let data := S.serialize cassette_dict
  let fs1 := ensureParentDir cassette_path fs
  if P.should_output_clear_text_as_well then
    match fs1.openWrite (cassette_path ++ P.clear_text_suffix) (strToBytes data) with
    | .error k => (.error (.osError k), fs1)
    | .ok fs2 => save_encode P aead cassette_path (strToBytes data) nonce fs2
  else
    save_encode P aead cassette_path (strToBytes data) nonce fs1

/-- The tail of `load_cassette` after the encoded file has been read:
split nonce / tagged ciphertext, key lookup, `AESGCM` key-length check,
decrypt, opportunistic clear-text write, deserialize. -/
def load_decode {R : Type} (P : Persister) (aead : AEAD) (S : Serializer R)
    (cassette_path : String) (content : Bytes) (fs : FS) : Except PyErr R × FS :=
  let nonce := content.take 12
  let tagged_ciphertext := content.drop 12
  match P.get_encryption_key with
  | .error e => (.error e, fs)
  | .ok key =>
    if validKeyLength key then
      match aead.decrypt key nonce tagged_ciphertext with
      | none => (.error .decodeError, fs)
      | some cassette_content =>
        let clear_text_cassette := cassette_path ++ P.clear_text_suffix
        if P.should_output_clear_text_as_well && !(fs.isfile clear_text_cassette) then
          match fs.openWrite clear_text_cassette cassette_content with
          | .error k => (.error (.osError k), fs)
          | .ok fs2 =>
            match S.deserialize cassette_content with
            | none => (.error .decodeError, fs2)
            | some cassette => (.ok cassette, fs2)
        else
          match S.deserialize cassette_content with
          | none => (.error .decodeError, fs)
          | some cassette => (.ok cassette, fs)
    else (.error .invalidKey, fs)

/-- `BaseEncryptedPersister.load_cassette`: the `try`/`except OSError`
around the read of the encoded file turns every `OSError` into
`ValueError("Cassette not found.")`; afterwards `load_decode` runs. -/
def load_cassette {R : Type} (P : Persister) (aead : AEAD) (S : Serializer R)
    (cassette_path : String) (fs : FS) : Except PyErr R × FS :=
  match fs.openRead (cassette_path ++ P.encoded_suffix) with
  | .error _ => (.error .notFound, fs)
  | .ok content => load_decode P aead S cassette_path content fs

/-- A concrete key of the valid length 16. -/
def key0 : Bytes := List.replicate 16 97

/-- A persister configured with `key0` and all defaults otherwise. -/
def P1 : Persister :=
  { encryption_key := some key0
    should_output_clear_text_as_well := false
    clear_text_suffix := ""
    encoded_suffix := ".enc" }

/-- A configured persister that also emits clear text, with a distinct
clear-text suffix. -/
def P2 : Persister :=
  { P1 with should_output_clear_text_as_well := true, clear_text_suffix := ".yaml" }

/-- The empty filesystem with no injected failures. -/
def fs0 : FS :=
  { files := fun _ => none
    dirs := fun _ => false
    failRead := fun _ => none
    failWrite := fun _ => none }

/-- A filesystem holding a 3-byte (hence truncated) encoded cassette. -/
def fsT : FS :=
  { fs0 with files := fun q => if q = "cass.enc" then some [1, 2, 3] else none }

/-- A filesystem where opening the encoded cassette fails with a
permission error. -/
def fsPerm : FS :=
  { fs0 with
    files := fun q => if q = "cass.enc" then some [1, 2, 3] else none
    failRead := fun q => if q = "cass.enc" then some OSKind.eacces else none }

/-- A toy AEAD instance used to instantiate witnesses: it satisfies the
contract hypotheses of the theorems at the concrete points where they are
needed. -/
def aead0 : AEAD :=
  { encrypt := fun _ _ pt => pt ++ List.replicate 16 0
    decrypt := fun _ _ ct =>
      if ct.length < 16 then none else some (ct.take (ct.length - 16)) }

/-- A toy serializer over `String` records used to instantiate witnesses. -/
def S0 : Serializer String :=
  { serialize := id
    deserialize := fun bs => if bs = strToBytes "cassette" then some "cassette" else none }

/-- A fixed 12-byte nonce for witnesses. -/
def nonce0 : Bytes := List.replicate 12 0

/-- An unconfigured persister that asks for a clear-text mirror. -/
def P3 : Persister :=
  { basePersister with should_output_clear_text_as_well := true, clear_text_suffix := ".yaml" }

/-- A filesystem that already holds a clear-text cassette. -/
def fsC : FS :=
  { fs0 with files := fun q => if q = "cass.yaml" then some [104] else none }

/-- The encoded blob `aead0` produces for the record of `S0` under `key0`
and `nonce0`. -/
def encBlob : Bytes := nonce0 ++ (strToBytes "cassette" ++ List.replicate 16 0)

/-- A filesystem holding that encoded cassette and no clear-text file. -/
def fsE : FS :=
  { fs0 with files := fun q => if q = "cass.enc" then some encBlob else none }

/-- A filesystem where writing the clear-text cassette fails with a
disk-full error. -/
def fsWC : FS :=
  { fs0 with failWrite := fun q => if q = "cass.yaml" then some OSKind.enospc else none }

/-- A filesystem where writing the encoded cassette fails with a
disk-full error. -/
def fsWE : FS :=
  { fs0 with failWrite := fun q => if q = "cass.enc" then some OSKind.enospc else none }

/-- `fsE` with a permission error injected on the clear-text write. -/
def fsED : FS :=
  { fsE with failWrite := fun q => if q = "cass.yaml" then some OSKind.eacces else none }

theorem writeFile_files (fs : FS) (p q : String) (c : Bytes) :
    (fs.writeFile p c).files q = if q = p then some c else fs.files q := rfl

theorem writeFile_failRead (fs : FS) (p : String) (c : Bytes) :
    (fs.writeFile p c).failRead = fs.failRead := rfl

theorem writeFile_failWrite (fs : FS) (p : String) (c : Bytes) :
    (fs.writeFile p c).failWrite = fs.failWrite := rfl

theorem ensureParentDir_files (p : String) (fs : FS) :
    (ensureParentDir p fs).files = fs.files := by
  unfold ensureParentDir; split <;> rfl

theorem ensureParentDir_failRead (p : String) (fs : FS) :
    (ensureParentDir p fs).failRead = fs.failRead := by
  unfold ensureParentDir; split <;> rfl

theorem ensureParentDir_failWrite (p : String) (fs : FS) :
    (ensureParentDir p fs).failWrite = fs.failWrite := by
  unfold ensureParentDir; split <;> rfl

theorem openRead_ok (fs : FS) (p : String) (c : Bytes)
    (h1 : fs.failRead p = none) (h2 : fs.files p = some c) :
    fs.openRead p = .ok c := by
  simp [FS.openRead, h1, h2]

theorem openRead_missing (fs : FS) (p : String)
    (h1 : fs.failRead p = none) (h2 : fs.files p = none) :
    fs.openRead p = .error .enoent := by
  simp [FS.openRead, h1, h2]

theorem openRead_fail (fs : FS) (p : String) (k : OSKind)
    (h : fs.failRead p = some k) : fs.openRead p = .error k := by
  simp [FS.openRead, h]

theorem openWrite_ok (fs : FS) (p : String) (c : Bytes)
    (h : fs.failWrite p = none) :
    fs.openWrite p c = .ok (fs.writeFile p c) := by
  simp [FS.openWrite, h]

theorem openWrite_fail (fs : FS) (p : String) (c : Bytes) (k : OSKind)
    (h : fs.failWrite p = some k) : fs.openWrite p c = .error k := by
  simp [FS.openWrite, h]

theorem save_encode_ok (P : Persister) (aead : AEAD) (path : String)
    (pt nonce : Bytes) (fs : FS) (k : Bytes)
    (hkey : P.encryption_key = some k) (hklen : validKeyLength k = true)
    (hwe : fs.failWrite (path ++ P.encoded_suffix) = none) :
    save_encode P aead path pt nonce fs =
      (.ok (), fs.writeFile (path ++ P.encoded_suffix) (nonce ++ aead.encrypt k nonce pt)) := by
  simp [save_encode, Persister.get_encryption_key, hkey, hklen, openWrite_ok _ _ _ hwe]

/-- General description of a successful `save_cassette`: the result state,
what the encoded and clear-text files now hold, and which paths are left
untouched. -/
theorem save_characterization {R : Type} (P : Persister) (aead : AEAD) (S : Serializer R)
    (path : String) (r : R) (nonce : Bytes) (fs : FS) (k : Bytes)
    (hkey : P.encryption_key = some k)
    (hklen : validKeyLength k = true)
    (hwc : fs.failWrite (path ++ P.clear_text_suffix) = none)
    (hwe : fs.failWrite (path ++ P.encoded_suffix) = none) :
    ∃ fs1, save_cassette P aead S path r nonce fs = (.ok (), fs1) ∧
      fs1.files (path ++ P.encoded_suffix)
        = some (nonce ++ aead.encrypt k nonce (strToBytes (S.serialize r))) ∧
      (P.should_output_clear_text_as_well = true →
        path ++ P.clear_text_suffix ≠ path ++ P.encoded_suffix →
        fs1.files (path ++ P.clear_text_suffix) = some (strToBytes (S.serialize r))) ∧
      (∀ q, q ≠ path ++ P.encoded_suffix → q ≠ path ++ P.clear_text_suffix →
        fs1.files q = fs.files q) ∧
      (P.should_output_clear_text_as_well = false →
        ∀ q, q ≠ path ++ P.encoded_suffix → fs1.files q = fs.files q) ∧
      fs1.failRead = fs.failRead ∧ fs1.failWrite = fs.failWrite := by
  have hsave : save_cassette P aead S path r nonce fs =
      (if P.should_output_clear_text_as_well then
        match (ensureParentDir path fs).openWrite (path ++ P.clear_text_suffix)
            (strToBytes (S.serialize r)) with
        | .error k => ((.error (.osError k) : Except PyErr Unit), ensureParentDir path fs)
        | .ok fs2 => save_encode P aead path (strToBytes (S.serialize r)) nonce fs2
      else save_encode P aead path (strToBytes (S.serialize r)) nonce (ensureParentDir path fs)) := rfl
  have hAfiles := ensureParentDir_files path fs
  have hAfr := ensureParentDir_failRead path fs
  have hAfw := ensureParentDir_failWrite path fs
  cases hemit : P.should_output_clear_text_as_well with
  | false =>
    rw [hsave, hemit, if_neg (by simp),
      save_encode_ok P aead path _ nonce _ k hkey hklen (by rw [hAfw]; exact hwe)]
    refine ⟨_, rfl, ?_, ?_, ?_, ?_, ?_, ?_⟩
    · simp [writeFile_files]
    · simp [hemit]
    · intro q hq1 _
      simp [writeFile_files, hq1, hAfiles]
    · intro _ q hq1
      simp [writeFile_files, hq1, hAfiles]
    · rw [writeFile_failRead, hAfr]
    · rw [writeFile_failWrite, hAfw]
  | true =>
    rw [hsave, hemit, if_pos rfl, openWrite_ok _ _ _ (by rw [hAfw]; exact hwc)]
    refine ⟨_, save_encode_ok P aead path _ nonce _ k hkey hklen
      (by rw [writeFile_failWrite, hAfw]; exact hwe), ?_, ?_, ?_, ?_, ?_, ?_⟩
    · simp [writeFile_files]
    · intro _ hne
      simp [writeFile_files, hne]
    · intro q hq1 hq2
      simp [writeFile_files, hq1, hq2, hAfiles]
    · intro hfalse
      exact absurd hfalse (by simp)
    · rw [writeFile_failRead, writeFile_failRead, hAfr]
    · rw [writeFile_failWrite, writeFile_failWrite, hAfw]

theorem load_cassette_read_fail {R : Type} (P : Persister) (aead : AEAD) (S : Serializer R)
    (path : String) (fs : FS) (k : OSKind)
    (h : fs.openRead (path ++ P.encoded_suffix) = .error k) :
    load_cassette P aead S path fs = (.error .notFound, fs) := by
  simp [load_cassette, h]

theorem load_cassette_read_ok {R : Type} (P : Persister) (aead : AEAD) (S : Serializer R)
    (path : String) (fs : FS) (c : Bytes)
    (h : fs.openRead (path ++ P.encoded_suffix) = .ok c) :
    load_cassette P aead S path fs = load_decode P aead S path c fs := by
  simp [load_cassette, h]

theorem load_decode_unconfigured {R : Type} (P : Persister) (aead : AEAD) (S : Serializer R)
    (path : String) (c : Bytes) (fs : FS)
    (hkey : P.encryption_key = none) :
    load_decode P aead S path c fs = (.error .notConfigured, fs) := by
  simp [load_decode, Persister.get_encryption_key, hkey]

theorem load_decode_decrypt_fail {R : Type} (P : Persister) (aead : AEAD) (S : Serializer R)
    (path : String) (c : Bytes) (fs : FS) (k : Bytes)
    (hkey : P.encryption_key = some k) (hklen : validKeyLength k = true)
    (hdec : aead.decrypt k (c.take 12) (c.drop 12) = none) :
    load_decode P aead S path c fs = (.error .decodeError, fs) := by
  simp [load_decode, Persister.get_encryption_key, hkey, hklen, hdec]

theorem load_decode_ok {R : Type} (P : Persister) (aead : AEAD) (S : Serializer R)
    (path : String) (c pt : Bytes) (fs : FS) (k : Bytes) (r : R)
    (hkey : P.encryption_key = some k) (hklen : validKeyLength k = true)
    (hdec : aead.decrypt k (c.take 12) (c.drop 12) = some pt)
    (hskip : P.should_output_clear_text_as_well = false
      ∨ fs.isfile (path ++ P.clear_text_suffix) = true)
    (hdeser : S.deserialize pt = some r) :
    load_decode P aead S path c fs = (.ok r, fs) := by
  rcases hskip with hf | hs
  · simp [load_decode, Persister.get_encryption_key, hkey, hklen, hdec, hdeser, hf]
  · simp [load_decode, Persister.get_encryption_key, hkey, hklen, hdec, hdeser, hs]

theorem load_decode_writes_clear {R : Type} (P : Persister) (aead : AEAD) (S : Serializer R)
    (path : String) (c pt : Bytes) (fs : FS) (k : Bytes)
    (hkey : P.encryption_key = some k) (hklen : validKeyLength k = true)
    (hdec : aead.decrypt k (c.take 12) (c.drop 12) = some pt)
    (hemit : P.should_output_clear_text_as_well = true)
    (habsent : fs.files (path ++ P.clear_text_suffix) = none)
    (hw : fs.failWrite (path ++ P.clear_text_suffix) = none) :
    (load_decode P aead S path c fs).2
      = fs.writeFile (path ++ P.clear_text_suffix) pt := by
  have hop := openWrite_ok fs (path ++ P.clear_text_suffix) pt hw
  simp only [load_decode, Persister.get_encryption_key, hkey, hklen, hdec, hemit,
    FS.isfile, habsent, Option.isSome_none, Bool.not_false, Bool.and_self, if_true, hop]
  cases S.deserialize pt <;> rfl

theorem load_preserves_fs_of_isfile {R : Type} (P : Persister) (aead : AEAD) (S : Serializer R)
    (path : String) (fs : FS)
    (h : fs.isfile (path ++ P.clear_text_suffix) = true) :
    (load_cassette P aead S path fs).2 = fs := by
  rcases h1 : fs.openRead (path ++ P.encoded_suffix) with k | c
  · rw [load_cassette_read_fail P aead S path fs k h1]
  · rw [load_cassette_read_ok P aead S path fs c h1]
    rcases hk : P.encryption_key with _ | key
    · rw [load_decode_unconfigured P aead S path c fs hk]
    · by_cases hkl : validKeyLength key = true
      · rcases hd : aead.decrypt key (c.take 12) (c.drop 12) with _ | pt
        · rw [load_decode_decrypt_fail P aead S path c fs key hk hkl hd]
        · rcases hs : S.deserialize pt with _ | r2
          · simp [load_decode, Persister.get_encryption_key, hk, hkl, hd, hs, h]
          · rw [load_decode_ok P aead S path c pt fs key r2 hk hkl hd (Or.inr h) hs]
      · simp [load_decode, Persister.get_encryption_key, hk, hkl]

theorem load_preserves_fs_of_no_clear {R : Type} (P : Persister) (aead : AEAD) (S : Serializer R)
    (path : String) (fs : FS)
    (h : P.should_output_clear_text_as_well = false) :
    (load_cassette P aead S path fs).2 = fs := by
  rcases h1 : fs.openRead (path ++ P.encoded_suffix) with k | c
  · rw [load_cassette_read_fail P aead S path fs k h1]
  · rw [load_cassette_read_ok P aead S path fs c h1]
    rcases hk : P.encryption_key with _ | key
    · rw [load_decode_unconfigured P aead S path c fs hk]
    · by_cases hkl : validKeyLength key = true
      · rcases hd : aead.decrypt key (c.take 12) (c.drop 12) with _ | pt
        · rw [load_decode_decrypt_fail P aead S path c fs key hk hkl hd]
        · rcases hs : S.deserialize pt with _ | r2
          · simp [load_decode, Persister.get_encryption_key, hk, hkl, hd, hs, h]
          · rw [load_decode_ok P aead S path c pt fs key r2 hk hkl hd (Or.inl h) hs]
      · simp [load_decode, Persister.get_encryption_key, hk, hkl]

theorem string_append_ne (p a b : String) (h : a ≠ b) : p ++ a ≠ p ++ b := by
  intro hc
  apply h
  apply String.ext
  have hd : (p ++ a).data = (p ++ b).data := congrArg String.data hc
  rw [String.data_append, String.data_append] at hd
  exact List.append_cancel_left hd

theorem utf8_available : ∀ c ∈ available_chars,
    (String.utf8EncodeChar c).map UInt8.toNat = [c.toNat] := by
  decide

theorem strToBytes_of_chars (cs : List Char) (h : ∀ c ∈ cs, c ∈ available_chars) :
    strToBytes (String.mk cs) = cs.map Char.toNat := by
  induction cs with
  | nil => rfl
  | cons c cs ih =>
    have hc := utf8_available c (h c (by simp))
    have hcs : ∀ x ∈ cs, x ∈ available_chars := fun x hx => h x (List.mem_cons_of_mem _ hx)
    have ihh := ih hcs
    simp only [strToBytes, List.flatMap_cons, List.map_append, List.map_cons] at *
    rw [hc, ihh]
    rfl

theorem save_cassette_unfold {R : Type} (P : Persister) (aead : AEAD) (S : Serializer R)
    (path : String) (r : R) (nonce : Bytes) (fs : FS) :
    save_cassette P aead S path r nonce fs =
      (if P.should_output_clear_text_as_well then
        match (ensureParentDir path fs).openWrite (path ++ P.clear_text_suffix)
            (strToBytes (S.serialize r)) with
        | .error k => ((.error (.osError k) : Except PyErr Unit), ensureParentDir path fs)
        | .ok fs2 => save_encode P aead path (strToBytes (S.serialize r)) nonce fs2
      else save_encode P aead path (strToBytes (S.serialize r)) nonce (ensureParentDir path fs)) :=
  rfl

theorem save_encode_unconfigured (P : Persister) (aead : AEAD) (path : String)
    (pt nonce : Bytes) (fs : FS) (hkey : P.encryption_key = none) :
    save_encode P aead path pt nonce fs = (.error .notConfigured, fs) := by
  simp [save_encode, Persister.get_encryption_key, hkey]

theorem save_encode_write_fail (P : Persister) (aead : AEAD) (path : String)
    (pt nonce : Bytes) (fs : FS) (k : Bytes) (kk : OSKind)
    (hkey : P.encryption_key = some k) (hklen : validKeyLength k = true)
    (hw : fs.failWrite (path ++ P.encoded_suffix) = some kk) :
    save_encode P aead path pt nonce fs = (.error (.osError kk), fs) := by
  simp [save_encode, Persister.get_encryption_key, hkey, hklen, openWrite_fail _ _ _ _ hw]

theorem load_decode_write_fail {R : Type} (P : Persister) (aead : AEAD) (S : Serializer R)
    (path : String) (c pt : Bytes) (fs : FS) (k : Bytes) (kk : OSKind)
    (hkey : P.encryption_key = some k) (hklen : validKeyLength k = true)
    (hdec : aead.decrypt k (c.take 12) (c.drop 12) = some pt)
    (hemit : P.should_output_clear_text_as_well = true)
    (habsent : fs.files (path ++ P.clear_text_suffix) = none)
    (hw : fs.failWrite (path ++ P.clear_text_suffix) = some kk) :
    load_decode P aead S path c fs = (.error (.osError kk), fs) := by
  simp [load_decode, Persister.get_encryption_key, hkey, hklen, hdec, hemit,
    FS.isfile, habsent, openWrite_fail _ _ pt kk hw]

theorem openRead_ok_inv (fs : FS) (p : String) (c : Bytes)
    (h : fs.openRead p = .ok c) :
    fs.failRead p = none ∧ fs.files p = some c := by
  unfold FS.openRead at h
  rcases hf : fs.failRead p with _ | k
  · rw [hf] at h
    rcases hc : fs.files p with _ | d
    · rw [hc] at h; exact absurd h (by simp)
    · rw [hc] at h
      simp only [Except.ok.injEq] at h
      exact ⟨rfl, by rw [h]⟩
  · rw [hf] at h; exact absurd h (by simp)

example : fs0.openRead "x" = .error .enoent := rfl
example : (load_cassette P1 aead0 S0 "cass" fs0).1 = .error .notFound := rfl
example : (load_cassette basePersister aead0 S0 "cass" fsT).1 = .error .notConfigured := rfl
example : (load_cassette P1 aead0 S0 "cass" fsT).1 = .error .decodeError := rfl
example : (load_cassette P1 aead0 S0 "cass" fsPerm).1 = .error .notFound := rfl

/-- C1: Round trip. For every persister configured with a valid AES key
(length 16, 24 or 32), every record whose serializer round-trips, a fresh
12-byte nonce, and the AES-GCM round-trip contract at that key and nonce,
`load_cassette` after `save_cassette` with the same configuration returns
the original record (and performs no further filesystem change). -/
theorem round_trip {R : Type} (P : Persister) (aead : AEAD) (S : Serializer R)
    (path : String) (r : R) (nonce : Bytes) (fs : FS) (k : Bytes)
    (hkey : P.encryption_key = some k)
    (hklen : validKeyLength k = true)
    (hnonce : nonce.length = 12)
    (hser : S.deserialize (strToBytes (S.serialize r)) = some r)
    (haead : aead.decrypt k nonce (aead.encrypt k nonce (strToBytes (S.serialize r)))
      = some (strToBytes (S.serialize r)))
    (hwc : fs.failWrite (path ++ P.clear_text_suffix) = none)
    (hwe : fs.failWrite (path ++ P.encoded_suffix) = none)
    (hre : fs.failRead (path ++ P.encoded_suffix) = none) :
    ∃ fs1, save_cassette P aead S path r nonce fs = (.ok (), fs1) ∧
      load_cassette P aead S path fs1 = (.ok r, fs1) := by
  obtain ⟨fs1, hsave, henc, hclear, _, _, hfr, _⟩ :=
    save_characterization P aead S path r nonce fs k hkey hklen hwc hwe
  refine ⟨fs1, hsave, ?_⟩
  have hread : fs1.openRead (path ++ P.encoded_suffix)
      = .ok (nonce ++ aead.encrypt k nonce (strToBytes (S.serialize r))) :=
    openRead_ok _ _ _ (by rw [hfr]; exact hre) henc
  rw [load_cassette_read_ok P aead S path fs1 _ hread]
  have htake : (nonce ++ aead.encrypt k nonce (strToBytes (S.serialize r))).take 12
      = nonce := List.take_left' hnonce
  have hdrop : (nonce ++ aead.encrypt k nonce (strToBytes (S.serialize r))).drop 12
      = aead.encrypt k nonce (strToBytes (S.serialize r)) := List.drop_left' hnonce
  have hskip : P.should_output_clear_text_as_well = false
      ∨ fs1.isfile (path ++ P.clear_text_suffix) = true := by
    cases hemit : P.should_output_clear_text_as_well
    · exact Or.inl rfl
    · right
      by_cases hpe : path ++ P.clear_text_suffix = path ++ P.encoded_suffix
      · simp [FS.isfile, hpe, henc]
      · simp [FS.isfile, hclear hemit hpe]
  exact load_decode_ok P aead S path _ _ fs1 k r hkey hklen
    (by rw [htake, hdrop]; exact haead) hskip hser

/-- C1 witness: a concrete round trip through `save_cassette` and
`load_cassette` with the toy collaborators. -/
theorem round_trip_witness :
    ∃ fs1, save_cassette P1 aead0 S0 "cass" "cassette" nonce0 fs0 = (.ok (), fs1) ∧
      load_cassette P1 aead0 S0 "cass" fs1 = (.ok "cassette", fs1) :=
  round_trip P1 aead0 S0 "cass" "cassette" nonce0 fs0 key0 rfl (by decide) (by decide)
    (by decide) (by decide) rfl rfl rfl

/-- C2: Encoded file layout and length. A successful `save_cassette` with a
configured valid key leaves at `<path><encoded_suffix>` exactly
`nonce || ciphertext_with_tag`; with the AEAD tag-length contract its
length is `12 + |serialized plaintext| + 16`. The prior filesystem `fs` is
arbitrary, so whatever was at that path before is replaced in full by this
exact blob. -/
theorem save_encoded_layout {R : Type} (P : Persister) (aead : AEAD) (S : Serializer R)
    (path : String) (r : R) (nonce : Bytes) (fs : FS) (k : Bytes)
    (hkey : P.encryption_key = some k)
    (hklen : validKeyLength k = true)
    (hnonce : nonce.length = 12)
    (htag : (aead.encrypt k nonce (strToBytes (S.serialize r))).length
      = (strToBytes (S.serialize r)).length + 16)
    (hwc : fs.failWrite (path ++ P.clear_text_suffix) = none)
    (hwe : fs.failWrite (path ++ P.encoded_suffix) = none) :
    ∃ fs1, save_cassette P aead S path r nonce fs = (.ok (), fs1) ∧
      fs1.files (path ++ P.encoded_suffix)
        = some (nonce ++ aead.encrypt k nonce (strToBytes (S.serialize r))) ∧
      (nonce ++ aead.encrypt k nonce (strToBytes (S.serialize r))).length
        = 12 + (strToBytes (S.serialize r)).length + 16 := by
  obtain ⟨fs1, hsave, henc, _, _, _, _, _⟩ :=
    save_characterization P aead S path r nonce fs k hkey hklen hwc hwe
  refine ⟨fs1, hsave, henc, ?_⟩
  rw [List.length_append, hnonce, htag]
  omega

/-- C2 witness: the concrete save writes a 36-byte blob
(12 nonce + 8 plaintext + 16 tag) at `cass.enc`. -/
theorem save_encoded_layout_witness :
    ∃ fs1, save_cassette P1 aead0 S0 "cass" "cassette" nonce0 fs0 = (.ok (), fs1) ∧
      fs1.files ("cass" ++ P1.encoded_suffix)
        = some (nonce0 ++ aead0.encrypt key0 nonce0 (strToBytes "cassette")) ∧
      (nonce0 ++ aead0.encrypt key0 nonce0 (strToBytes "cassette")).length
        = 12 + (strToBytes "cassette").length + 16 :=
  save_encoded_layout P1 aead0 S0 "cass" "cassette" nonce0 fs0 key0 rfl (by decide)
    (by decide) (by decide) rfl rfl

/-- C3 counterexample: a persister with no key set, loading a path whose
encoded file does not exist, fails with `NotFound` — not `NotConfigured`
as the claim requires of every unconfigured call. -/
theorem unconfigured_failure_cex :
    (load_cassette basePersister aead0 S0 "cass" fs0).1 = .error .notFound ∧
      PyErr.notFound ≠ PyErr.notConfigured :=
  ⟨rfl, by decide⟩

/-- C3 amended: with no key set, `save_cassette` always fails
`NotConfigured`, but only after its earlier file I/O — when
`emit_clear_text` is on, the clear-text file has already been written when
it fails (and parent-directory creation may have happened);
`load_cassette` with no key fails `NotConfigured` only when the encoded
file exists and has been read, and fails `NotFound` instead when the
encoded file is absent. -/
theorem unconfigured_failure_amended {R : Type} (P : Persister) (aead : AEAD)
    (S : Serializer R) (path : String) (r : R) (nonce : Bytes) (fs : FS)
    (hkey : P.encryption_key = none) :
    (fs.failWrite (path ++ P.clear_text_suffix) = none →
      (save_cassette P aead S path r nonce fs).1 = .error .notConfigured ∧
      (P.should_output_clear_text_as_well = true →
        (save_cassette P aead S path r nonce fs).2.files (path ++ P.clear_text_suffix)
          = some (strToBytes (S.serialize r)))) ∧
    (∀ c, fs.failRead (path ++ P.encoded_suffix) = none →
      fs.files (path ++ P.encoded_suffix) = some c →
      load_cassette P aead S path fs = (.error .notConfigured, fs)) ∧
    (fs.failRead (path ++ P.encoded_suffix) = none →
      fs.files (path ++ P.encoded_suffix) = none →
      load_cassette P aead S path fs = (.error .notFound, fs)) := by
  refine ⟨?_, ?_, ?_⟩
  · intro hwc
    rw [save_cassette_unfold]
    have hAfw := ensureParentDir_failWrite path fs
    cases hemit : P.should_output_clear_text_as_well
    · rw [if_neg (by simp),
        save_encode_unconfigured P aead path _ nonce _ hkey]
      exact ⟨rfl, fun h => absurd h (by simp)⟩
    · rw [if_pos rfl, openWrite_ok _ _ _ (by rw [hAfw]; exact hwc)]
      have hse := save_encode_unconfigured P aead path (strToBytes (S.serialize r)) nonce
        ((ensureParentDir path fs).writeFile (path ++ P.clear_text_suffix)
          (strToBytes (S.serialize r))) hkey
      constructor
      · simp only [hse]
      · intro _
        simp only [hse]
        simp [writeFile_files]
  · intro c hre hfile
    rw [load_cassette_read_ok P aead S path fs c (openRead_ok _ _ _ hre hfile)]
    exact load_decode_unconfigured P aead S path c fs hkey
  · intro hre hmiss
    exact load_cassette_read_fail P aead S path fs .enoent (openRead_missing _ _ hre hmiss)

/-- C3 amended witness: the unconfigured clear-text-emitting save fails
`NotConfigured` yet has written `cass.yaml`; the unconfigured load fails
`NotConfigured` on an existing encoded file and `NotFound` on a missing
one. -/
theorem unconfigured_failure_amended_witness :
    ((save_cassette P3 aead0 S0 "cass" "cassette" nonce0 fs0).1 = .error .notConfigured ∧
      (save_cassette P3 aead0 S0 "cass" "cassette" nonce0 fs0).2.files ("cass" ++ P3.clear_text_suffix)
        = some (strToBytes "cassette")) ∧
    load_cassette basePersister aead0 S0 "cass" fsT = (.error .notConfigured, fsT) ∧
    load_cassette basePersister aead0 S0 "cass" fs0 = (.error .notFound, fs0) := by
  have hs := unconfigured_failure_amended P3 aead0 S0 "cass" "cassette" nonce0 fs0 rfl
  have hT := unconfigured_failure_amended basePersister aead0 S0 "cass" "cassette" nonce0 fsT rfl
  have h0 := unconfigured_failure_amended basePersister aead0 S0 "cass" "cassette" nonce0 fs0 rfl
  exact ⟨⟨(hs.1 rfl).1, (hs.1 rfl).2 rfl⟩, hT.2.1 [1, 2, 3] rfl rfl, h0.2.2 rfl rfl⟩

/-- C4: Tamper and truncation detection. With a configured valid key, if
the bytes at the encoded path are rejected by AES-GCM decryption under
that key (which, by the AEAD contract, covers any flipped ciphertext byte,
truncation, or encryption under a different key), `load_cassette` fails
with `DecodeError` and the filesystem is returned unchanged — no record is
produced and the file contents are never re-emitted as plaintext. -/
theorem tamper_detection {R : Type} (P : Persister) (aead : AEAD) (S : Serializer R)
    (path : String) (fs : FS) (c k : Bytes)
    (hkey : P.encryption_key = some k)
    (hklen : validKeyLength k = true)
    (hre : fs.failRead (path ++ P.encoded_suffix) = none)
    (hfile : fs.files (path ++ P.encoded_suffix) = some c)
    (hdec : aead.decrypt k (c.take 12) (c.drop 12) = none) :
    load_cassette P aead S path fs = (.error .decodeError, fs) := by
  rw [load_cassette_read_ok P aead S path fs c (openRead_ok _ _ _ hre hfile)]
  exact load_decode_decrypt_fail P aead S path c fs k hkey hklen hdec

/-- C4 witness: loading a truncated 3-byte encoded file fails with
`DecodeError` and leaves the filesystem untouched. -/
theorem tamper_detection_witness :
    load_cassette P1 aead0 S0 "cass" fsT = (.error .decodeError, fsT) :=
  tamper_detection P1 aead0 S0 "cass" fsT [1, 2, 3] key0 rfl (by decide) rfl rfl (by decide)

/-- C5: `generate_key` contract. When every random draw comes from the
fixed pool `available_chars` (uppercase, digits, lowercase, punctuation —
as `secrets.choice` guarantees), a valid `bit_length` yields exactly
`bit_length / 8` bytes, each byte the raw encoding of a pool character;
any other `bit_length` fails with `InvalidParameter`. The function is pure
apart from the draws, which are its `choice` argument. -/
theorem generate_key_contract (bit_length : Nat) (choice : Nat → Char)
    (hchoice : ∀ i, choice i ∈ available_chars) :
    ((bit_length = 128 ∨ bit_length = 192 ∨ bit_length = 256) →
      ∃ l, generate_key bit_length choice = .ok l ∧ l.length = bit_length / 8 ∧
        ∀ b ∈ l, ∃ c ∈ available_chars, b = c.toNat) ∧
    (¬(bit_length = 128 ∨ bit_length = 192 ∨ bit_length = 256) →
      generate_key bit_length choice = .error .invalidParameter) := by
  constructor
  · intro hval
    have hmem : bit_length ∈ [128, 192, 256] := by
      rcases hval with h | h | h <;> simp [h]
    have hgen : generate_key bit_length choice
        = .ok (strToBytes (String.mk ((List.range (bit_length / 8)).map choice))) := by
      unfold generate_key
      rw [if_neg (not_not_intro hmem)]
    have hchars : ∀ x ∈ (List.range (bit_length / 8)).map choice, x ∈ available_chars := by
      intro x hx
      rcases List.mem_map.mp hx with ⟨i, _, rfl⟩
      exact hchoice i
    have hbytes := strToBytes_of_chars _ hchars
    refine ⟨_, hgen, ?_, ?_⟩
    · rw [hbytes]
      simp
    · rw [hbytes]
      intro b hb
      rcases List.mem_map.mp hb with ⟨cch, hcin, rfl⟩
      rcases List.mem_map.mp hcin with ⟨i, _, rfl⟩
      exact ⟨choice i, hchoice i, rfl⟩
  · intro hinval
    have hnot : bit_length ∉ [128, 192, 256] := by simpa using hinval
    unfold generate_key
    rw [if_pos hnot]

/-- C5 witness: a constant draw of the pool character `A` gives a 16-byte
key at `bit_length = 128`, and `bit_length = 3` fails `InvalidParameter`. -/
theorem generate_key_contract_witness :
    (∃ l, generate_key 128 (fun _ => 'A') = .ok l ∧ l.length = 128 / 8 ∧
      ∀ b ∈ l, ∃ c ∈ available_chars, b = c.toNat) ∧
    generate_key 3 (fun _ => 'A') = .error .invalidParameter :=
  ⟨(generate_key_contract 128 (fun _ => 'A')
      (fun _ => (by decide : 'A' ∈ available_chars))).1 (Or.inl rfl),
   (generate_key_contract 3 (fun _ => 'A')
      (fun _ => (by decide : 'A' ∈ available_chars))).2 (by decide)⟩

/-- C6: Clear-text toggle. With `emit_clear_text` off, `load_cassette`
never changes the filesystem at all and a successful `save_cassette`
leaves the (distinct) clear-text path untouched. With it on, a successful
`save_cassette` (re)writes the clear-text file with the serialized
plaintext whatever was there before; `load_cassette` never changes the
filesystem when a clear-text file already exists, and writes the decrypted
plaintext there when it is absent. -/
theorem clear_text_toggle {R : Type} (P : Persister) (aead : AEAD) (S : Serializer R)
    (path : String) (r : R) (nonce : Bytes) (fs : FS) :
    (P.should_output_clear_text_as_well = false →
      (load_cassette P aead S path fs).2 = fs) ∧
    (P.should_output_clear_text_as_well = false →
      P.clear_text_suffix ≠ P.encoded_suffix →
      ∀ k, P.encryption_key = some k → validKeyLength k = true →
      fs.failWrite (path ++ P.clear_text_suffix) = none →
      fs.failWrite (path ++ P.encoded_suffix) = none →
      (save_cassette P aead S path r nonce fs).2.files (path ++ P.clear_text_suffix)
        = fs.files (path ++ P.clear_text_suffix)) ∧
    (P.should_output_clear_text_as_well = true →
      P.clear_text_suffix ≠ P.encoded_suffix →
      ∀ k, P.encryption_key = some k → validKeyLength k = true →
      fs.failWrite (path ++ P.clear_text_suffix) = none →
      fs.failWrite (path ++ P.encoded_suffix) = none →
      (save_cassette P aead S path r nonce fs).2.files (path ++ P.clear_text_suffix)
        = some (strToBytes (S.serialize r))) ∧
    (fs.isfile (path ++ P.clear_text_suffix) = true →
      (load_cassette P aead S path fs).2 = fs) ∧
    (∀ c pt k, P.should_output_clear_text_as_well = true →
      P.encryption_key = some k → validKeyLength k = true →
      fs.failRead (path ++ P.encoded_suffix) = none →
      fs.files (path ++ P.encoded_suffix) = some c →
      aead.decrypt k (c.take 12) (c.drop 12) = some pt →
      fs.files (path ++ P.clear_text_suffix) = none →
      fs.failWrite (path ++ P.clear_text_suffix) = none →
      (load_cassette P aead S path fs).2.files (path ++ P.clear_text_suffix) = some pt) := by
  refine ⟨?_, ?_, ?_, ?_, ?_⟩
  · exact fun h => load_preserves_fs_of_no_clear P aead S path fs h
  · intro hemit hsuf k hkey hklen hwc hwe
    obtain ⟨fs1, hsave, _, _, _, hframe0, _, _⟩ :=
      save_characterization P aead S path r nonce fs k hkey hklen hwc hwe
    rw [hsave]
    exact hframe0 hemit _ (string_append_ne path _ _ hsuf)
  · intro hemit hsuf k hkey hklen hwc hwe
    obtain ⟨fs1, hsave, _, hclear, _, _, _, _⟩ :=
      save_characterization P aead S path r nonce fs k hkey hklen hwc hwe
    rw [hsave]
    exact hclear hemit (string_append_ne path _ _ hsuf)
  · exact fun h => load_preserves_fs_of_isfile P aead S path fs h
  · intro c pt k hemit hkey hklen hre hfile hdec habsent hwc
    rw [load_cassette_read_ok P aead S path fs c (openRead_ok _ _ _ hre hfile)]
    rw [load_decode_writes_clear P aead S path c pt fs k hkey hklen hdec hemit habsent hwc]
    simp [writeFile_files]

/-- C6 witness: concrete instances of all five parts of the toggle
behaviour. -/
theorem clear_text_toggle_witness :
    (load_cassette P1 aead0 S0 "cass" fs0).2 = fs0 ∧
    (save_cassette P1 aead0 S0 "cass" "cassette" nonce0 fs0).2.files
      ("cass" ++ P1.clear_text_suffix) = fs0.files ("cass" ++ P1.clear_text_suffix) ∧
    (save_cassette P2 aead0 S0 "cass" "cassette" nonce0 fs0).2.files
      ("cass" ++ P2.clear_text_suffix) = some (strToBytes "cassette") ∧
    (load_cassette P2 aead0 S0 "cass" fsC).2 = fsC ∧
    (load_cassette P2 aead0 S0 "cass" fsE).2.files ("cass" ++ P2.clear_text_suffix)
      = some (strToBytes "cassette") := by
  refine ⟨(clear_text_toggle P1 aead0 S0 "cass" "cassette" nonce0 fs0).1 rfl,
    (clear_text_toggle P1 aead0 S0 "cass" "cassette" nonce0 fs0).2.1 rfl (by decide)
      key0 rfl (by decide) rfl rfl,
    (clear_text_toggle P2 aead0 S0 "cass" "cassette" nonce0 fs0).2.2.1 rfl (by decide)
      key0 rfl (by decide) rfl rfl,
    (clear_text_toggle P2 aead0 S0 "cass" "cassette" nonce0 fsC).2.2.2.1 (by decide),
    (clear_text_toggle P2 aead0 S0 "cass" "cassette" nonce0 fsE).2.2.2.2 encBlob
      (strToBytes "cassette") key0 rfl rfl (by decide) rfl rfl (by decide) rfl rfl⟩

/-- C7: Missing-file behaviour. If no file exists at
`<path><encoded_suffix>` (and no other I/O failure is injected there),
`load_cassette` fails with `NotFound` and returns the filesystem
unchanged — for every AEAD and serializer, so no decryption or
deserialization step is consulted. -/
theorem missing_file_not_found {R : Type} (P : Persister) (path : String) (fs : FS)
    (hre : fs.failRead (path ++ P.encoded_suffix) = none)
    (hmiss : fs.files (path ++ P.encoded_suffix) = none)
    (aead : AEAD) (S : Serializer R) :
    load_cassette P aead S path fs = (.error .notFound, fs) :=
  load_cassette_read_fail P aead S path fs .enoent (openRead_missing fs _ hre hmiss)

/-- C7 witness: loading from the empty filesystem fails `NotFound`. -/
theorem missing_file_not_found_witness :
    load_cassette P1 aead0 S0 "cass" fs0 = (.error .notFound, fs0) :=
  missing_file_not_found P1 "cass" fs0 rfl rfl aead0 S0

/-- C8 counterexample: a permission error (`eacces`) while opening the
encoded file during `load_cassette` is translated into the `NotFound`
error instead of propagating unchanged, because the source wraps the read
in `except OSError: raise ValueError("Cassette not found.")`. -/
theorem fs_error_transparency_cex :
    load_cassette P1 aead0 S0 "cass" fsPerm = (.error .notFound, fsPerm) ∧
      PyErr.notFound ≠ PyErr.osError OSKind.eacces :=
  ⟨rfl, by decide⟩

/-- C8 amended: `save_cassette` propagates filesystem errors unchanged
(from both the clear-text write and the encoded write), and so does
`load_cassette` for its clear-text write; but any `OSError` raised while
opening or reading the encoded file in `load_cassette` — permission
denied included — is translated into the `NotFound` error rather than
propagated. -/
theorem fs_error_transparency_amended {R : Type} (P : Persister) (aead : AEAD)
    (S : Serializer R) (path : String) (r : R) (nonce : Bytes) (fs : FS) :
    (∀ kk, P.should_output_clear_text_as_well = true →
      fs.failWrite (path ++ P.clear_text_suffix) = some kk →
      (save_cassette P aead S path r nonce fs).1 = .error (.osError kk)) ∧
    (∀ kk k, P.encryption_key = some k → validKeyLength k = true →
      (P.should_output_clear_text_as_well = false
        ∨ fs.failWrite (path ++ P.clear_text_suffix) = none) →
      fs.failWrite (path ++ P.encoded_suffix) = some kk →
      (save_cassette P aead S path r nonce fs).1 = .error (.osError kk)) ∧
    (∀ kk, fs.failRead (path ++ P.encoded_suffix) = some kk →
      load_cassette P aead S path fs = (.error .notFound, fs)) ∧
    (∀ kk c pt k, P.encryption_key = some k → validKeyLength k = true →
      fs.failRead (path ++ P.encoded_suffix) = none →
      fs.files (path ++ P.encoded_suffix) = some c →
      aead.decrypt k (c.take 12) (c.drop 12) = some pt →
      P.should_output_clear_text_as_well = true →
      fs.files (path ++ P.clear_text_suffix) = none →
      fs.failWrite (path ++ P.clear_text_suffix) = some kk →
      (load_cassette P aead S path fs).1 = .error (.osError kk)) := by
  have hAfw := ensureParentDir_failWrite path fs
  refine ⟨?_, ?_, ?_, ?_⟩
  · intro kk hemit hwc
    rw [save_cassette_unfold, hemit, if_pos rfl,
      openWrite_fail _ _ _ _ (by rw [hAfw]; exact hwc)]
  · intro kk k hkey hklen hclr hwe
    rcases hclr with hemit | hwc
    · rw [save_cassette_unfold, hemit, if_neg (by simp),
        save_encode_write_fail P aead path _ nonce _ k kk hkey hklen (by rw [hAfw]; exact hwe)]
    · cases hemit : P.should_output_clear_text_as_well
      · rw [save_cassette_unfold, hemit, if_neg (by simp),
          save_encode_write_fail P aead path _ nonce _ k kk hkey hklen (by rw [hAfw]; exact hwe)]
      · rw [save_cassette_unfold, hemit, if_pos rfl,
          openWrite_ok _ _ _ (by rw [hAfw]; exact hwc)]
        have hse := save_encode_write_fail P aead path (strToBytes (S.serialize r)) nonce
          ((ensureParentDir path fs).writeFile (path ++ P.clear_text_suffix)
            (strToBytes (S.serialize r))) k kk hkey hklen
          (by rw [writeFile_failWrite, hAfw]; exact hwe)
        simp only [hse]
  · intro kk hfail
    exact load_cassette_read_fail P aead S path fs kk (openRead_fail _ _ _ hfail)
  · intro kk c pt k hkey hklen hre hfile hdec hemit habsent hwc
    rw [load_cassette_read_ok P aead S path fs c (openRead_ok _ _ _ hre hfile),
      load_decode_write_fail P aead S path c pt fs k kk hkey hklen hdec hemit habsent hwc]

/-- C8 amended witness: concrete instances of all four parts. -/
theorem fs_error_transparency_amended_witness :
    (save_cassette P2 aead0 S0 "cass" "cassette" nonce0 fsWC).1
      = .error (.osError OSKind.enospc) ∧
    (save_cassette P1 aead0 S0 "cass" "cassette" nonce0 fsWE).1
      = .error (.osError OSKind.enospc) ∧
    load_cassette P1 aead0 S0 "cass" fsPerm = (.error .notFound, fsPerm) ∧
    (load_cassette P2 aead0 S0 "cass" fsED).1 = .error (.osError OSKind.eacces) := by
  refine ⟨(fs_error_transparency_amended P2 aead0 S0 "cass" "cassette" nonce0 fsWC).1
      OSKind.enospc rfl rfl,
    (fs_error_transparency_amended P1 aead0 S0 "cass" "cassette" nonce0 fsWE).2.1
      OSKind.enospc key0 rfl (by decide) (Or.inl rfl) rfl,
    (fs_error_transparency_amended P1 aead0 S0 "cass" "cassette" nonce0 fsPerm).2.2.1
      OSKind.eacces rfl,
    (fs_error_transparency_amended P2 aead0 S0 "cass" "cassette" nonce0 fsED).2.2.2
      OSKind.eacces encBlob (strToBytes "cassette") key0 rfl (by decide) rfl rfl
      (by decide) rfl rfl rfl⟩

/-- C9: Error precedence on unconfigured load. With no key set,
`load_cassette` on a missing encoded file fails `NotFound` (not
`NotConfigured`); it fails `NotConfigured` exactly when the encoded file
was opened and read successfully, so a `NotConfigured` outcome implies the
file was present and readable. -/
theorem unconfigured_load_precedence {R : Type} (P : Persister) (aead : AEAD)
    (S : Serializer R) (path : String) (fs : FS)
    (hkey : P.encryption_key = none) :
    (fs.failRead (path ++ P.encoded_suffix) = none →
      fs.files (path ++ P.encoded_suffix) = none →
      load_cassette P aead S path fs = (.error .notFound, fs)) ∧
    (∀ c, fs.failRead (path ++ P.encoded_suffix) = none →
      fs.files (path ++ P.encoded_suffix) = some c →
      load_cassette P aead S path fs = (.error .notConfigured, fs)) ∧
    ((load_cassette P aead S path fs).1 = .error .notConfigured →
      fs.failRead (path ++ P.encoded_suffix) = none ∧
      (fs.files (path ++ P.encoded_suffix)).isSome = true) := by
  refine ⟨?_, ?_, ?_⟩
  · intro hre hmiss
    exact load_cassette_read_fail P aead S path fs .enoent (openRead_missing _ _ hre hmiss)
  · intro c hre hfile
    rw [load_cassette_read_ok P aead S path fs c (openRead_ok _ _ _ hre hfile)]
    exact load_decode_unconfigured P aead S path c fs hkey
  · intro hout
    rcases h1 : fs.openRead (path ++ P.encoded_suffix) with kk | c
    · rw [load_cassette_read_fail P aead S path fs kk h1] at hout
      exact absurd hout (by simp)
    · obtain ⟨hre, hfile⟩ := openRead_ok_inv fs _ c h1
      exact ⟨hre, by rw [hfile]; rfl⟩

/-- C9 witness: concrete unconfigured loads — `NotFound` on a missing
file, `NotConfigured` on an existing one, and the read-success fact
extracted from the `NotConfigured` outcome. -/
theorem unconfigured_load_precedence_witness :
    load_cassette basePersister aead0 S0 "cass" fs0 = (.error .notFound, fs0) ∧
    load_cassette basePersister aead0 S0 "cass" fsT = (.error .notConfigured, fsT) ∧
    (fsT.failRead ("cass" ++ basePersister.encoded_suffix) = none ∧
      (fsT.files ("cass" ++ basePersister.encoded_suffix)).isSome = true) := by
  have h0 := unconfigured_load_precedence basePersister aead0 S0 "cass" fs0 rfl
  have hT := unconfigured_load_precedence basePersister aead0 S0 "cass" fsT rfl
  exact ⟨h0.1 rfl rfl, hT.2.1 [1, 2, 3] rfl rfl,
    hT.2.2 (by rw [hT.2.1 [1, 2, 3] rfl rfl])⟩

/-- C10: `generate_key` default. With draws from the pool, the declared
default `bit_length = 128` produces a 16-byte key, which passes the AES
key-length check (length in 16, 24, 32). -/
theorem generate_key_default_spec (choice : Nat → Char)
    (hchoice : ∀ i, choice i ∈ available_chars) :
    ∃ l, generate_key_default choice = .ok l ∧ l.length = 16 ∧ validKeyLength l = true := by
  have hchars : ∀ x ∈ (List.range 16).map choice, x ∈ available_chars := by
    intro x hx
    rcases List.mem_map.mp hx with ⟨i, _, rfl⟩
    exact hchoice i
  have hbytes := strToBytes_of_chars _ hchars
  have hlen : (strToBytes (String.mk ((List.range 16).map choice))).length = 16 := by
    rw [hbytes]; simp
  refine ⟨_, ?_, hlen, ?_⟩
  · show generate_key 128 choice = _
    unfold generate_key
    rw [if_neg (by decide)]
  · simp [validKeyLength, hlen]

/-- C10 witness: the default call with constant pool draws yields a
16-byte key accepted by the key-length check. -/
theorem generate_key_default_spec_witness :
    ∃ l, generate_key_default (fun _ => 'A') = .ok l ∧ l.length = 16 ∧
      validKeyLength l = true :=
  generate_key_default_spec (fun _ => 'A') (fun _ => (by decide : 'A' ∈ available_chars))
